import Mathlib

/-!
Verification of `scripts/check_pg_extensions.py`.

The script drives a service's extension-management API: for each extension
set it enables each extension in order, then disables them in reverse
order, polling the instance's `last_operation` state after every change
until it reaches `succeeded` or `failed`.  Authorization tokens rotate:
the script keeps a global `_auth_header` refreshed from a line-oriented
stdin stream via a non-blocking `select` readiness check.

We embed the script shallowly:
  * the token stream is a `TokenStream`: lines already pending (visible to
    `select`) plus lines that would arrive later on a blocking read;
  * HTTP responses are supplied by oracles — a list of poll responses for
    the GET endpoint and a list of status codes for the PATCH endpoint;
  * every function returns its result together with the trace of `Event`s
    (printed output lines and outbound requests) it produced;
  * fallible behaviour (an exhausted token stream raising `StopIteration`,
    a non-2xx response raising via `raise_for_status`) becomes the
    `RunRes.exn` outcome, `sys.exit(8)` becomes `RunRes.opFail`, and an
    exhausted response oracle (the real loop would keep polling) becomes
    `RunRes.spin`.
PATCH request bodies (the `enable_extensions` / `disable_extensions` /
`reboot` parameters) are recorded through the request events themselves.
-/

namespace CheckPgExtensions

/-- Python's `str.strip()`: remove leading and trailing whitespace. -/
def pyStrip (s : String) : String :=
  String.mk (((s.toList.dropWhile Char.isWhitespace).reverse.dropWhile
    Char.isWhitespace).reverse)

/-- Python's `repr` of a string, as used by the `{extension!r}` format
specifier (extension names contain no quotes or escapes). -/
def pyRepr (s : String) : String := "'" ++ s ++ "'"

/-- The token input stream (the script's stdin).  `pending` holds the
lines already buffered and visible to `select([f], [], [], 0)`; `future`
holds lines that would arrive later, obtainable only by a blocking read.
The stream is exhausted (EOF, `next` raises `StopIteration`) once both are
empty. -/
structure TokenStream where
  pending : List String
  future : List String
deriving Repr, DecidableEq

/-- `select([f], [], [], 0)[0]` is non-empty iff data is already pending. -/
def TokenStream.ready (s : TokenStream) : Bool := !s.pending.isEmpty

/-- `next(f)`: consume one line (pending lines first, then future ones);
`none` models `StopIteration` at EOF. -/
def TokenStream.next : TokenStream → Option (String × TokenStream)
  | ⟨l :: ls, fut⟩ => some (l, ⟨ls, fut⟩)
  | ⟨[], l :: ls⟩ => some (l, ⟨[], ls⟩)
  | ⟨[], []⟩ => none

/-- Total number of lines the stream can still deliver. -/
def TokenStream.size (s : TokenStream) : Nat :=
  s.pending.length + s.future.length

/-- The `while True` loop of `_get_auth_header`, with its iteration count
bounded by a fuel argument: repeatedly read a line, strip it, adopt it as
the new `_auth_header` when non-empty (printing `<new auth token>`), and
stop as soon as `_auth_header` is set.  Each iteration consumes one line,
so with `fuel = s.size` (see `authLoop`) the fuel never runs out before
the stream does, and the `0`/`none` cases coincide: both model an uncaught
`StopIteration` from `next(f)` at EOF. -/
def authLoopGo : Nat → Option String → TokenStream →
    Option (String × TokenStream × List String)
  | 0, _, _ => none
  | fuel + 1, auth, s =>
    match s.next with
    | none => none
    | some (l, s') =>
      if pyStrip l ≠ "" then
        some (pyStrip l, s', ["<new auth token>"])
      else
        match auth with
        | some a => some (a, s', [])
        | none => authLoopGo fuel none s'

/-- The `while True` loop of `_get_auth_header`: returns the resulting
header value, the remaining stream and the printed lines; `none` models an
uncaught `StopIteration` from `next(f)`. -/
def authLoop (auth : Option String) (s : TokenStream) :
    Option (String × TokenStream × List String) :=
  authLoopGo s.size auth s

/-- `_get_auth_header`: enter the read loop iff no header exists yet or
`select` reports pending data; otherwise return the cached header without
touching the stream.  The credential is modelled by the stripped line that
the header dict `{"Authorization": line}` wraps. -/
def get_auth_header (auth : Option String) (s : TokenStream) :
    Option (String × TokenStream × List String) :=
  match auth with
  | none => authLoop none s
  | some a => if s.ready then authLoop (some a) s else some (a, s, [])

/-- One response of `GET /v3/service_instances/{guid}`: its HTTP status
and the body's `last_operation.state` / `last_operation.description`. -/
structure PollResp where
  status : Nat
  state : String
  description : String
deriving Repr, DecidableEq

/-- `requests.Response.raise_for_status` raises unless the status is 2xx
(for these APIs; `requests` accepts any non-4xx/5xx, and the oracle only
ever supplies 2xx/4xx/5xx codes). -/
def is2xx (n : Nat) : Bool := 200 ≤ n && n < 300

/-- Everything an outbound call observes or prints, in order. -/
inductive Event where
  | out (line : String)
  | enableReq (ext : String) (auth : String)
  | disableReq (ext : String) (auth : String)
  | pollReq (auth : String)
deriving Repr, DecidableEq

/-- The script's mutable state plus the response oracles: the global
`_auth_header`, the stdin stream, the remaining scripted poll responses
and the remaining scripted PATCH status codes. -/
structure St where
  auth : Option String
  ts : TokenStream
  polls : List PollResp
  patches : List Nat
deriving Repr, DecidableEq

/-- How a run (or a sub-loop) ends. -/
inductive RunRes where
  | ok (s : St)
  | opFail (description : String)
  | exn
  | spin
deriving Repr, DecidableEq

/-- Process exit code: 0 on success, 8 from `sys.exit(8)` on a reported
operation failure, 1 for an uncaught exception; `none` when the loop never
terminates (response oracle exhausted). -/
def exitCode : RunRes → Option Nat
  | .ok _ => some 0
  | .opFail _ => some 8
  | .exn => some 1
  | .spin => none

/-- `_wait_for_success`: sleep, GET the instance with a fresh auth header,
`raise_for_status`, then dispatch on `last_operation.state`: `"succeeded"`
prints `succeeded` and returns; `"failed"` prints the description and
exits with code 8; anything else prints `.` and loops. -/
def wait_for_success (auth : Option String) (ts : TokenStream)
    (patches : List Nat) : List PollResp → RunRes × List Event
  | [] => (.spin, [])
  | p :: ps =>
    match get_auth_header auth ts with
    | none => (.exn, [])
    | some (a, ts', outs) =>
      let ev := outs.map Event.out ++ [Event.pollReq a]
      if is2xx p.status = false then (.exn, ev)
      else if p.state = "succeeded" then
        (.ok ⟨some a, ts', ps, patches⟩, ev ++ [Event.out "succeeded"])
      else if p.state = "failed" then
        (.opFail p.description,
          ev ++ [Event.out ("description: " ++ p.description)])
      else
        let r := wait_for_success (some a) ts' patches ps
        (r.1, ev ++ [Event.out "."] ++ r.2)

/-- One iteration of either loop body of `test_extensions`: announce the
change, obtain a fresh auth header, issue the PATCH (with
`enable_extensions`/`disable_extensions` `[ext]` and `reboot: true`),
`raise_for_status`, then wait for the operation to converge. -/
def doOp (enable : Bool) (ext : String) (s : St) : RunRes × List Event :=
  let ann := Event.out
    ((if enable then "enabling" else "disabling") ++ " extension " ++ pyRepr ext)
  match get_auth_header s.auth s.ts with
  | none => (.exn, [ann])
  | some (a, ts', outs) =>
    match s.patches with
    | [] => (.spin, ann :: outs.map Event.out)
    | st :: rest =>
      let req := if enable then Event.enableReq ext a else Event.disableReq ext a
      if is2xx st = false then (.exn, ann :: outs.map Event.out ++ [req])
      else
        let w := wait_for_success (some a) ts' rest s.polls
        (w.1, ann :: outs.map Event.out ++ [req] ++ w.2)

/-- Run a list of (enable?, extension) operations in order, stopping at
the first one that does not return normally. -/
def doOps : List (Bool × String) → St → RunRes × List Event
  | [], s => (.ok s, [])
  | (en, ext) :: rest, s =>
    match doOp en ext s with
    | (.ok s', t) =>
      let r := doOps rest s'
      (r.1, t ++ r.2)
    | (r, t) => (r, t)

/-- The two loops of `test_extensions` for one extension set: enable each
extension in listed order, then disable each in reversed order. -/
def setOps (exts : List String) : List (Bool × String) :=
  exts.map (fun e => (true, e)) ++ exts.reverse.map (fun e => (false, e))

/-- `test_extensions`: process each extension set in order. -/
def test_extensions : List (List String) → St → RunRes × List Event
  | [], s => (.ok s, [])
  | es :: rest, s =>
    match doOps (setOps es) s with
    | (.ok s', t) =>
      let r := test_extensions rest s'
      (r.1, t ++ r.2)
    | (r, t) => (r, t)

/-- An outbound HTTP request, stripped of its headers. -/
inductive Req where
  | enable (ext : String)
  | disable (ext : String)
  | poll
deriving Repr, DecidableEq

/-- Project an event to the request it issues, if any. -/
def reqOf : Event → Option Req
  | .enableReq e _ => some (.enable e)
  | .disableReq e _ => some (.disable e)
  | .pollReq _ => some .poll
  | .out _ => none

/-- The outbound requests of a trace, in order. -/
def reqTrace (t : List Event) : List Req := t.filterMap reqOf

/-- The Authorization header carried by each outbound request, in order. -/
def headerTrace (t : List Event) : List String :=
  t.filterMap fun e =>
    match e with
    | .enableReq _ a => some a
    | .disableReq _ a => some a
    | .pollReq a => some a
    | .out _ => none

/-! ### Unfolding lemmas for the credential loop -/

theorem authLoop_cons_pending (auth : Option String) (l : String)
    (ls fut : List String) :
    authLoop auth ⟨l :: ls, fut⟩ =
      (if pyStrip l ≠ "" then
        some (pyStrip l, ⟨ls, fut⟩, ["<new auth token>"])
      else
        match auth with
        | some a => some (a, (⟨ls, fut⟩ : TokenStream), [])
        | none => authLoop none ⟨ls, fut⟩) := by
  show authLoopGo ((l :: ls).length + fut.length) auth ⟨l :: ls, fut⟩ = _
  have h : (l :: ls).length + fut.length = (ls.length + fut.length) + 1 := by
    simp [Nat.add_right_comm]
  rw [h]
  rfl

theorem authLoop_cons_future (auth : Option String) (l : String)
    (ls : List String) :
    authLoop auth ⟨[], l :: ls⟩ =
      (if pyStrip l ≠ "" then
        some (pyStrip l, ⟨[], ls⟩, ["<new auth token>"])
      else
        match auth with
        | some a => some (a, (⟨[], ls⟩ : TokenStream), [])
        | none => authLoop none ⟨[], ls⟩) := by
  rfl

theorem authLoop_empty (auth : Option String) : authLoop auth ⟨[], []⟩ = none :=
  rfl

theorem authLoop_adopt (auth : Option String) (l : String) (ls fut : List String)
    (hl : pyStrip l ≠ "") :
    authLoop auth ⟨l :: ls, fut⟩ =
      some (pyStrip l, ⟨ls, fut⟩, ["<new auth token>"]) := by
  rw [authLoop_cons_pending]
  simp [hl]

theorem authLoop_blank_some (a : String) (l : String) (ls fut : List String)
    (hl : pyStrip l = "") :
    authLoop (some a) ⟨l :: ls, fut⟩ = some (a, ⟨ls, fut⟩, []) := by
  rw [authLoop_cons_pending]
  simp [hl]

theorem authLoop_blank_none (l : String) (ls fut : List String)
    (hl : pyStrip l = "") :
    authLoop none ⟨l :: ls, fut⟩ = authLoop none ⟨ls, fut⟩ := by
  rw [authLoop_cons_pending]
  simp [hl]

theorem get_auth_header_cached (a : String) (s : TokenStream)
    (h : s.ready = false) : get_auth_header (some a) s = some (a, s, []) := by
  simp [get_auth_header, h]

theorem get_auth_header_refresh (a : String) (s : TokenStream)
    (h : s.ready = true) : get_auth_header (some a) s = authLoop (some a) s := by
  simp [get_auth_header, h]

/-! ### The polling loop -/

/-- A poll response that keeps the loop going: a 2xx status whose state is
neither terminal string. -/
def nonTerminal (p : PollResp) : Bool :=
  is2xx p.status && p.state != "succeeded" && p.state != "failed"

/-- A scripted poll sequence on which one wait converges: zero or more
non-terminal responses followed by one 2xx `succeeded` response. -/
def convSucc : List PollResp → Bool
  | [] => false
  | [p] => is2xx p.status && p.state == "succeeded"
  | p :: ps => nonTerminal p && convSucc ps

/-- The trace of one non-terminal polling round, `n` times over. -/
def dotTrace (a : String) : Nat → List Event
  | 0 => []
  | n + 1 => Event.pollReq a :: Event.out "." :: dotTrace a n

theorem wait_step_nonterminal (a : String) (ts : TokenStream)
    (patches : List Nat) (p : PollResp) (ps : List PollResp)
    (hts : ts.ready = false) (h2 : is2xx p.status = true)
    (hs : p.state ≠ "succeeded") (hf : p.state ≠ "failed") :
    wait_for_success (some a) ts patches (p :: ps) =
      ((wait_for_success (some a) ts patches ps).1,
        Event.pollReq a :: Event.out "." ::
          (wait_for_success (some a) ts patches ps).2) := by
  simp [wait_for_success, get_auth_header_cached a ts hts, h2, hs, hf]

theorem wait_step_success (a : String) (ts : TokenStream) (patches : List Nat)
    (p : PollResp) (ps : List PollResp) (hts : ts.ready = false)
    (h2 : is2xx p.status = true) (hs : p.state = "succeeded") :
    wait_for_success (some a) ts patches (p :: ps) =
      (.ok ⟨some a, ts, ps, patches⟩,
        [Event.pollReq a, Event.out "succeeded"]) := by
  simp [wait_for_success, get_auth_header_cached a ts hts, h2, hs]

theorem wait_step_failed (a : String) (ts : TokenStream) (patches : List Nat)
    (p : PollResp) (ps : List PollResp) (hts : ts.ready = false)
    (h2 : is2xx p.status = true) (hf : p.state = "failed") :
    wait_for_success (some a) ts patches (p :: ps) =
      (.opFail p.description,
        [Event.pollReq a, Event.out ("description: " ++ p.description)]) := by
  have hs : p.state ≠ "succeeded" := by rw [hf]; decide
  simp [wait_for_success, get_auth_header_cached a ts hts, h2, hs, hf]

theorem nonTerminal_spec {p : PollResp} (hp : nonTerminal p = true) :
    is2xx p.status = true ∧ p.state ≠ "succeeded" ∧ p.state ≠ "failed" := by
  simpa [nonTerminal, and_assoc] using hp

theorem wait_skip_all (a : String) (ts : TokenStream) (patches : List Nat)
    (pre ps : List PollResp) (hts : ts.ready = false)
    (hpre : ∀ p ∈ pre, nonTerminal p = true) :
    wait_for_success (some a) ts patches (pre ++ ps) =
      ((wait_for_success (some a) ts patches ps).1,
        dotTrace a pre.length ++ (wait_for_success (some a) ts patches ps).2) := by
  induction pre with
  | nil => simp [dotTrace]
  | cons p pre ih =>
    obtain ⟨h2, hs, hf⟩ := nonTerminal_spec (hpre p (by simp))
    rw [List.cons_append,
      wait_step_nonterminal a ts patches p (pre ++ ps) hts h2 hs hf,
      ih (fun q hq => hpre q (by simp [hq]))]
    simp [dotTrace]

theorem convSucc_decomp {b : List PollResp} (hb : convSucc b = true) :
    ∃ pre plast, b = pre ++ [plast] ∧ (∀ p ∈ pre, nonTerminal p = true) ∧
      is2xx plast.status = true ∧ plast.state = "succeeded" := by
  induction b with
  | nil => simp [convSucc] at hb
  | cons p ps ih =>
    cases ps with
    | nil =>
      refine ⟨[], p, by simp, by simp, ?_, ?_⟩
      · exact ((Bool.and_eq_true _ _).mp hb).1
      · have := ((Bool.and_eq_true _ _).mp hb).2
        simpa using this
    | cons q qs =>
      have hb' := (Bool.and_eq_true _ _).mp hb
      obtain ⟨pre, plast, heq, hpre, h2, hs⟩ := ih hb'.2
      refine ⟨p :: pre, plast, by simp [heq], ?_, h2, hs⟩
      intro x hx
      rcases List.mem_cons.mp hx with h | h
      · exact h ▸ hb'.1
      · exact hpre x h

theorem wait_conv (a : String) (ts : TokenStream) (patches : List Nat)
    (b rest : List PollResp) (hts : ts.ready = false)
    (hb : convSucc b = true) :
    wait_for_success (some a) ts patches (b ++ rest) =
      (.ok ⟨some a, ts, rest, patches⟩,
        dotTrace a (b.length - 1) ++
          [Event.pollReq a, Event.out "succeeded"]) := by
  obtain ⟨pre, plast, rfl, hpre, h2, hs⟩ := convSucc_decomp hb
  rw [List.append_assoc, wait_skip_all a ts patches pre _ hts hpre,
    List.singleton_append, wait_step_success a ts patches plast rest hts h2 hs]
  simp

theorem reqTrace_dotTrace (a : String) (n : Nat) :
    reqTrace (dotTrace a n) = List.replicate n Req.poll := by
  induction n with
  | zero => rfl
  | succ n ih =>
    rw [dotTrace, List.replicate_succ]
    simpa [reqTrace, reqOf, List.filterMap_cons] using ih

theorem headerTrace_dotTrace (a : String) (n : Nat) :
    headerTrace (dotTrace a n) = List.replicate n a := by
  induction n with
  | zero => rfl
  | succ n ih =>
    rw [dotTrace, List.replicate_succ]
    simpa [headerTrace, List.filterMap_cons] using ih

/-- C2: `_wait_for_success` (with an established credential, no pending
token data, and 2xx responses throughout) returns normally iff the polled
state sequence contains `"succeeded"` with no earlier `"failed"`, and
exits with the server-supplied description iff the sequence reaches
`"failed"` before any terminal state. -/
theorem c2_wait_terminal_iff (a : String) (ts : TokenStream) (patches : List Nat)
    (polls : List PollResp) (hts : ts.ready = false)
    (h2xx : ∀ p ∈ polls, is2xx p.status = true) :
    ((∃ s', (wait_for_success (some a) ts patches polls).1 = RunRes.ok s') ↔
      (∃ pre p rest, polls = pre ++ p :: rest ∧ p.state = "succeeded" ∧
        ∀ q ∈ pre, q.state ≠ "failed")) ∧
    (∀ d, ((wait_for_success (some a) ts patches polls).1 = RunRes.opFail d ↔
      (∃ pre p rest, polls = pre ++ p :: rest ∧ p.state = "failed" ∧
        d = p.description ∧
        ∀ q ∈ pre, q.state ≠ "succeeded" ∧ q.state ≠ "failed"))) := by
  induction polls with
  | nil =>
    constructor
    · constructor
      · rintro ⟨s', hs'⟩
        simp [wait_for_success] at hs'
      · rintro ⟨pre, p, rest, heq, -⟩
        exact absurd heq (by simp)
    · intro d
      constructor
      · intro hd
        simp [wait_for_success] at hd
      · rintro ⟨pre, p, rest, heq, -⟩
        exact absurd heq (by simp)
  | cons p ps ih =>
    have h2 : is2xx p.status = true := h2xx p (by simp)
    by_cases hs : p.state = "succeeded"
    · rw [wait_step_success a ts patches p ps hts h2 hs]
      constructor
      · refine iff_of_true ⟨_, rfl⟩ ⟨[], p, ps, rfl, hs, by simp⟩
      · intro d
        refine iff_of_false (by simp) ?_
        rintro ⟨pre, q, rest, heq, hqf, -, hpre⟩
        cases pre with
        | nil =>
          injection heq with h1 h2
          rw [← h1] at hqf
          rw [hs] at hqf
          exact absurd hqf (by decide)
        | cons r pre' =>
          rw [List.cons_append] at heq
          injection heq with h1 h2
          exact (hpre p (by simp [h1])).1 hs
    · by_cases hf : p.state = "failed"
      · rw [wait_step_failed a ts patches p ps hts h2 hf]
        constructor
        · refine iff_of_false (by simp) ?_
          rintro ⟨pre, q, rest, heq, hq, hpre⟩
          cases pre with
          | nil =>
            injection heq with h1 h2
            rw [← h1] at hq
            exact hs hq
          | cons r pre' =>
            rw [List.cons_append] at heq
            injection heq with h1 h2
            exact hpre p (by simp [h1]) hf
        · intro d
          constructor
          · intro hd
            simp only [RunRes.opFail.injEq] at hd
            exact ⟨[], p, ps, rfl, hf, hd.symm, by simp⟩
          · rintro ⟨pre, q, rest, heq, hqf, hd, hpre⟩
            cases pre with
            | nil =>
              injection heq with h1 h2
              rw [← h1] at hd
              rw [hd]
            | cons r pre' =>
              rw [List.cons_append] at heq
              injection heq with h1 h2
              exact absurd hf (hpre p (by simp [h1])).2
      · rw [wait_step_nonterminal a ts patches p ps hts h2 hs hf]
        have ihs := ih (fun q hq => h2xx q (by simp [hq]))
        constructor
        · rw [ihs.1]
          constructor
          · rintro ⟨pre, q, rest, heq, hq, hpre⟩
            refine ⟨p :: pre, q, rest, by simp [heq], hq, ?_⟩
            intro x hx
            rcases List.mem_cons.mp hx with h | h
            · exact h ▸ hf
            · exact hpre x h
          · rintro ⟨pre, q, rest, heq, hq, hpre⟩
            cases pre with
            | nil =>
              injection heq with h1 h2
              exact absurd hq (h1 ▸ hs)
            | cons r pre' =>
              rw [List.cons_append] at heq
              injection heq with h1 h2
              exact ⟨pre', q, rest, h2, hq,
                fun x hx => hpre x (List.mem_cons_of_mem r hx)⟩
        · intro d
          rw [(ihs.2 d)]
          constructor
          · rintro ⟨pre, q, rest, heq, hqf, hd, hpre⟩
            refine ⟨p :: pre, q, rest, by simp [heq], hqf, hd, ?_⟩
            intro x hx
            rcases List.mem_cons.mp hx with h | h
            · exact h ▸ ⟨hs, hf⟩
            · exact hpre x h
          · rintro ⟨pre, q, rest, heq, hqf, hd, hpre⟩
            cases pre with
            | nil =>
              injection heq with h1 h2
              exact absurd hqf (h1 ▸ hf)
            | cons r pre' =>
              rw [List.cons_append] at heq
              injection heq with h1 h2
              exact ⟨pre', q, rest, h2, hqf, hd,
                fun x hx => hpre x (List.mem_cons_of_mem r hx)⟩

theorem c2_witness :
    (∀ p ∈ ([⟨200, "pending", ""⟩, ⟨200, "succeeded", ""⟩] : List PollResp),
      is2xx p.status = true) ∧
    ∃ s', (wait_for_success (some "tok") ⟨[], []⟩ []
      [⟨200, "pending", ""⟩, ⟨200, "succeeded", ""⟩]).1 = RunRes.ok s' :=
  ⟨by decide,
    (c2_wait_terminal_iff "tok" ⟨[], []⟩ []
        [⟨200, "pending", ""⟩, ⟨200, "succeeded", ""⟩] rfl (by decide)).1.mpr
      ⟨[⟨200, "pending", ""⟩], ⟨200, "succeeded", ""⟩, [], rfl, rfl, by decide⟩⟩

/-- C6: a 2xx poll response whose state is neither exactly `"succeeded"`
nor exactly `"failed"` never ends the loop or the process: the loop emits
one poll request and one `.` progress marker, then behaves exactly as it
does on the remaining responses. -/
theorem c6_unrecognized_nonterminal (a : String) (ts : TokenStream)
    (patches : List Nat) (p : PollResp) (ps : List PollResp)
    (hts : ts.ready = false) (h2 : is2xx p.status = true)
    (hs : p.state ≠ "succeeded") (hf : p.state ≠ "failed") :
    wait_for_success (some a) ts patches (p :: ps) =
      ((wait_for_success (some a) ts patches ps).1,
        Event.pollReq a :: Event.out "." ::
          (wait_for_success (some a) ts patches ps).2) :=
  wait_step_nonterminal a ts patches p ps hts h2 hs hf

theorem c6_witness :
    wait_for_success (some "a") ⟨[], []⟩ [] [⟨200, "in progress", ""⟩] =
      ((wait_for_success (some "a") ⟨[], []⟩ [] []).1,
        Event.pollReq "a" :: Event.out "." ::
          (wait_for_success (some "a") ⟨[], []⟩ [] []).2) :=
  c6_unrecognized_nonterminal "a" ⟨[], []⟩ [] ⟨200, "in progress", ""⟩ []
    rfl (by decide) (by decide) (by decide)

/-- C5: once a credential is established, `_get_auth_header` never blocks:
if `select` reports nothing pending it consumes nothing and returns the
cached credential unchanged, and in every case it only ever consumes
already-pending data, never lines that would require a blocking read. -/
theorem c5_no_second_block (a : String) (s : TokenStream) :
    (s.ready = false → get_auth_header (some a) s = some (a, s, [])) ∧
    (∃ v ts' outs, get_auth_header (some a) s = some (v, ts', outs) ∧
      ts'.future = s.future) := by
  refine ⟨get_auth_header_cached a s, ?_⟩
  rcases s with ⟨pending, future⟩
  cases pending with
  | nil => exact ⟨a, ⟨[], future⟩, [], get_auth_header_cached a _ rfl, rfl⟩
  | cons l ls =>
    rw [get_auth_header_refresh a _ (by simp [TokenStream.ready])]
    by_cases hl : pyStrip l = ""
    · rw [authLoop_blank_some a l ls future hl]
      exact ⟨a, ⟨ls, future⟩, [], rfl, rfl⟩
    · rw [authLoop_adopt (some a) l ls future hl]
      exact ⟨pyStrip l, ⟨ls, future⟩, ["<new auth token>"], rfl, rfl⟩

theorem c5_witness :
    get_auth_header (some "tok") ⟨[], ["later"]⟩ =
      some ("tok", ⟨[], ["later"]⟩, []) :=
  (c5_no_second_block "tok" ⟨[], ["later"]⟩).1 rfl

/-- C10: once a credential is established, each `_get_auth_header` call
consumes exactly one pending line when `select` reports data and zero
lines otherwise. -/
theorem c10_at_most_one_line (a : String) (s : TokenStream) :
    (s.ready = true → ∃ v outs, get_auth_header (some a) s =
      some (v, ⟨s.pending.tail, s.future⟩, outs)) ∧
    (s.ready = false → get_auth_header (some a) s = some (a, s, [])) := by
  refine ⟨?_, get_auth_header_cached a s⟩
  intro h
  rcases s with ⟨pending, future⟩
  cases pending with
  | nil => simp [TokenStream.ready] at h
  | cons l ls =>
    rw [get_auth_header_refresh a _ h]
    by_cases hl : pyStrip l = ""
    · rw [authLoop_blank_some a l ls future hl]
      exact ⟨a, [], rfl⟩
    · rw [authLoop_adopt (some a) l ls future hl]
      exact ⟨pyStrip l, ["<new auth token>"], rfl⟩

theorem c10_witness :
    ∃ v outs, get_auth_header (some "a") ⟨["x", "y"], []⟩ =
      some (v, ⟨["y"], []⟩, outs) :=
  (c10_at_most_one_line "a" ⟨["x", "y"], []⟩).1 rfl

theorem authLoopGo_none_result (fuel : Nat) (s : TokenStream)
    (v : String) (ts' : TokenStream) (outs : List String)
    (h : authLoopGo fuel none s = some (v, ts', outs)) :
    v ≠ "" ∧ outs = ["<new auth token>"] := by
  induction fuel generalizing s with
  | zero => simp [authLoopGo] at h
  | succ n ih =>
    rw [authLoopGo] at h
    cases hn : s.next with
    | none => rw [hn] at h; simp at h
    | some ls' =>
      obtain ⟨l, s'⟩ := ls'
      rw [hn] at h
      by_cases hl : pyStrip l = ""
      · simp only [hl, ne_eq, not_true_eq_false, if_false, reduceIte] at h
        exact ih s' h
      · simp only [hl, ne_eq, not_false_eq_true, if_true, reduceIte,
          Option.some.injEq, Prod.mk.injEq] at h
        exact ⟨h.1 ▸ hl, h.2.2.symm⟩

/-- C9: the stored credential is always a non-empty stripped line: blank
lines never establish or replace it.  (1) a non-empty credential stays
non-empty across any `_get_auth_header` call; (2) during a refresh a
pending blank line is consumed but leaves the credential unchanged with no
adoption notice; (3) during initial acquisition, blank lines are skipped
until the first non-empty line, whose stripped value (and an adoption
notice) is adopted. -/
theorem c9_credential_nonempty :
    (∀ (auth : Option String) (s : TokenStream) (v : String)
        (ts' : TokenStream) (outs : List String),
        (∀ a, auth = some a → a ≠ "") →
        get_auth_header auth s = some (v, ts', outs) → v ≠ "") ∧
    (∀ (a l : String) (ls fut : List String), pyStrip l = "" →
        get_auth_header (some a) ⟨l :: ls, fut⟩ = some (a, ⟨ls, fut⟩, [])) ∧
    (∀ (pre : List String) (l : String) (ls fut : List String),
        (∀ x ∈ pre, pyStrip x = "") → pyStrip l ≠ "" →
        get_auth_header none ⟨pre ++ l :: ls, fut⟩ =
          some (pyStrip l, ⟨ls, fut⟩, ["<new auth token>"])) := by
  refine ⟨?_, ?_, ?_⟩
  · intro auth s v ts' outs hne h
    cases auth with
    | none =>
      simp only [get_auth_header] at h
      exact (authLoopGo_none_result s.size s v ts' outs h).1
    | some a =>
      rcases s with ⟨pending, future⟩
      cases hp : pending with
      | nil =>
        rw [hp] at h
        rw [get_auth_header_cached a ⟨[], future⟩ rfl] at h
        simp only [Option.some.injEq, Prod.mk.injEq] at h
        rw [← h.1]
        exact hne a rfl
      | cons l ls =>
        rw [hp] at h
        rw [get_auth_header_refresh a _ (by simp [TokenStream.ready])] at h
        by_cases hl : pyStrip l = ""
        · rw [authLoop_blank_some a l ls future hl] at h
          simp only [Option.some.injEq, Prod.mk.injEq] at h
          rw [← h.1]
          exact hne a rfl
        · rw [authLoop_adopt (some a) l ls future hl] at h
          simp only [Option.some.injEq, Prod.mk.injEq] at h
          rw [← h.1]
          exact hl
  · intro a l ls fut hl
    rw [show get_auth_header (some a) ⟨l :: ls, fut⟩ =
        authLoop (some a) ⟨l :: ls, fut⟩ from
      get_auth_header_refresh a _ (by simp [TokenStream.ready])]
    exact authLoop_blank_some a l ls fut hl
  · intro pre l ls fut hpre hl
    show authLoop none ⟨pre ++ l :: ls, fut⟩ = _
    induction pre with
    | nil => exact authLoop_adopt none l ls fut hl
    | cons x pre ih =>
      rw [List.cons_append, authLoop_blank_none x _ fut (hpre x (by simp))]
      exact ih (fun y hy => hpre y (by simp [hy]))

theorem c9_witness :
    get_auth_header none ⟨["", "  "] ++ " tok " :: ["z"], []⟩ =
      some ("tok", ⟨["z"], []⟩, ["<new auth token>"]) := by
  have h := c9_credential_nonempty.2.2 ["", "  "] " tok " ["z"] []
    (by decide) (by decide)
  simpa using h

/-! ### The sequencer -/

/-- All operations a full plan performs, in order. -/
def planOps (plan : List (List String)) : List (Bool × String) :=
  plan.flatMap setOps

/-- The expected wire-request sequence: each operation's state-changing
request followed by one poll request per scripted response of its wait. -/
def planReqs : List (Bool × String) → List (List PollResp) → List Req
  | (en, e) :: ops, b :: bs =>
    (if en then Req.enable e else Req.disable e) ::
      (List.replicate b.length Req.poll ++ planReqs ops bs)
  | _, _ => []

theorem doOps_cons (en : Bool) (ext : String) (rest : List (Bool × String))
    (s : St) :
    doOps ((en, ext) :: rest) s =
      (match doOp en ext s with
       | (.ok s', t) => ((doOps rest s').1, t ++ (doOps rest s').2)
       | (r, t) => (r, t)) := rfl

theorem doOps_append (xs ys : List (Bool × String)) (s : St) :
    doOps (xs ++ ys) s =
      (match doOps xs s with
       | (.ok s', t) => ((doOps ys s').1, t ++ (doOps ys s').2)
       | (r, t) => (r, t)) := by
  induction xs generalizing s with
  | nil => simp [doOps]
  | cons op rest ih =>
    obtain ⟨en, ext⟩ := op
    rw [List.cons_append, doOps_cons, doOps_cons]
    rcases hdo : doOp en ext s with ⟨r, t⟩
    cases r with
    | ok s' =>
      simp only
      rw [ih s']
      rcases hd2 : doOps rest s' with ⟨r2, t2⟩
      cases r2 <;> simp
    | opFail d => simp
    | exn => simp
    | spin => simp

theorem test_extensions_eq_doOps (plan : List (List String)) (s : St) :
    test_extensions plan s = doOps (planOps plan) s := by
  induction plan generalizing s with
  | nil => rfl
  | cons es rest ih =>
    rw [planOps, List.flatMap_cons, doOps_append]
    show (match doOps (setOps es) s with
       | (.ok s', t) =>
         ((test_extensions rest s').1, t ++ (test_extensions rest s').2)
       | (r, t) => (r, t)) = _
    rcases hdo : doOps (setOps es) s with ⟨r, t⟩
    cases r with
    | ok s' => simp only; rw [ih s', planOps]
    | opFail d => simp
    | exn => simp
    | spin => simp

theorem doOp_eq (en : Bool) (ext : String) (s : St) (a : String)
    (ts' : TokenStream) (outs : List String) (st : Nat) (prest : List Nat)
    (hga : get_auth_header s.auth s.ts = some (a, ts', outs))
    (hpat : s.patches = st :: prest) (h2 : is2xx st = true) :
    doOp en ext s =
      ((wait_for_success (some a) ts' prest s.polls).1,
        Event.out ((if en then "enabling" else "disabling") ++
            " extension " ++ pyRepr ext) ::
          (outs.map Event.out ++
            ((if en then Event.enableReq ext a else Event.disableReq ext a) ::
              (wait_for_success (some a) ts' prest s.polls).2))) := by
  simp [doOp, hga, hpat, h2]

theorem convSucc_length {b : List PollResp} (hb : convSucc b = true) :
    b.length = (b.length - 1) + 1 := by
  cases b with
  | nil => simp [convSucc] at hb
  | cons p ps => simp

theorem doOp_conv (en : Bool) (ext : String) (s : St) (a : String)
    (ts' : TokenStream) (outs : List String) (b rest : List PollResp)
    (st : Nat) (prest : List Nat)
    (hga : get_auth_header s.auth s.ts = some (a, ts', outs))
    (hts' : ts'.ready = false)
    (hpolls : s.polls = b ++ rest) (hb : convSucc b = true)
    (hpat : s.patches = st :: prest) (h2 : is2xx st = true) :
    doOp en ext s =
      (RunRes.ok ⟨some a, ts', rest, prest⟩,
        Event.out ((if en then "enabling" else "disabling") ++
            " extension " ++ pyRepr ext) ::
          (outs.map Event.out ++
            ((if en then Event.enableReq ext a else Event.disableReq ext a) ::
              (dotTrace a (b.length - 1) ++
                [Event.pollReq a, Event.out "succeeded"])))) := by
  rw [doOp_eq en ext s a ts' outs st prest hga hpat h2, hpolls,
    wait_conv a ts' prest b rest hts' hb]

theorem reqTrace_cons_out (l : String) (t : List Event) :
    reqTrace (Event.out l :: t) = reqTrace t := by
  simp [reqTrace, List.filterMap_cons, reqOf]

theorem reqTrace_outs (outs : List String) (t : List Event) :
    reqTrace (outs.map Event.out ++ t) = reqTrace t := by
  induction outs with
  | nil => rfl
  | cons o os ih => simpa [reqTrace_cons_out] using ih

theorem reqTrace_op_conv (en : Bool) (ext a : String) (outs : List String)
    (b : List PollResp) (hb : convSucc b = true) :
    reqTrace (Event.out ((if en then "enabling" else "disabling") ++
          " extension " ++ pyRepr ext) ::
        (outs.map Event.out ++
          ((if en then Event.enableReq ext a else Event.disableReq ext a) ::
            (dotTrace a (b.length - 1) ++
              [Event.pollReq a, Event.out "succeeded"])))) =
      (if en then Req.enable ext else Req.disable ext) ::
        List.replicate b.length Req.poll := by
  rw [reqTrace_cons_out, reqTrace_outs]
  have h1 : reqTrace ((if en then Event.enableReq ext a else Event.disableReq ext a) ::
      (dotTrace a (b.length - 1) ++ [Event.pollReq a, Event.out "succeeded"])) =
      (if en then Req.enable ext else Req.disable ext) ::
        (List.replicate (b.length - 1) Req.poll ++ [Req.poll]) := by
    cases en <;>
      simp [reqTrace, List.filterMap_cons, List.filterMap_append, reqOf,
        ← reqTrace_dotTrace a (b.length - 1)]
  rw [h1, ← List.replicate_succ' (b.length - 1) Req.poll, ← convSucc_length hb]

theorem doOps_conv (ops : List (Bool × String)) (blocks : List (List PollResp))
    (a : String) (ts : TokenStream) (hts : ts.ready = false)
    (hlen : blocks.length = ops.length)
    (hconv : ∀ b ∈ blocks, convSucc b = true) :
    (doOps ops ⟨some a, ts, blocks.flatten,
        List.replicate ops.length 200⟩).1 = RunRes.ok ⟨some a, ts, [], []⟩ ∧
    reqTrace (doOps ops ⟨some a, ts, blocks.flatten,
        List.replicate ops.length 200⟩).2 = planReqs ops blocks := by
  induction ops generalizing blocks with
  | nil =>
    cases blocks with
    | nil => exact ⟨rfl, rfl⟩
    | cons b bs => simp at hlen
  | cons op rest ih =>
    cases blocks with
    | nil => simp at hlen
    | cons b bs =>
      obtain ⟨en, ext⟩ := op
      have hdo := doOp_conv en ext
        ⟨some a, ts, (b :: bs).flatten, List.replicate ((en, ext) :: rest).length 200⟩
        a ts [] b bs.flatten 200 (List.replicate rest.length 200)
        (get_auth_header_cached a ts hts) hts (by simp)
        (hconv b (by simp)) (by simp [List.replicate_succ]) (by decide)
      rw [doOps_cons, hdo]
      simp only
      have ihr := ih bs (by simpa using hlen)
        (fun x hx => hconv x (by simp [hx]))
      refine ⟨ihr.1, ?_⟩
      rw [reqTrace, List.filterMap_append, ← reqTrace, ← reqTrace, ihr.2]
      rw [show reqTrace (Event.out ((if en then "enabling" else "disabling") ++
            " extension " ++ pyRepr ext) ::
          (List.map Event.out [] ++
            ((if en then Event.enableReq ext a else Event.disableReq ext a) ::
              (dotTrace a (b.length - 1) ++
                [Event.pollReq a, Event.out "succeeded"])))) =
        (if en then Req.enable ext else Req.disable ext) ::
          List.replicate b.length Req.poll from
        reqTrace_op_conv en ext a [] b (hconv b (by simp))]
      simp [planReqs]

/-- C1: starting from a fresh credential stream holding one non-blank
token, for every plan, when every operation's scripted poll block
converges to `succeeded` (one block per operation, all 2xx), the run issues
exactly the expected request sequence — for each extension set the enables
in listed order then the disables in exactly reversed order, each
state-changing request immediately followed by that operation's poll
requests — and exits with code 0. -/
theorem c1_sequencer_order (plan : List (List String)) (tok : String)
    (blocks : List (List PollResp)) (htok : pyStrip tok ≠ "")
    (hlen : blocks.length = (planOps plan).length)
    (hconv : ∀ b ∈ blocks, convSucc b = true) :
    exitCode (test_extensions plan ⟨none, ⟨[tok], []⟩, blocks.flatten,
      List.replicate (planOps plan).length 200⟩).1 = some 0 ∧
    reqTrace (test_extensions plan ⟨none, ⟨[tok], []⟩, blocks.flatten,
      List.replicate (planOps plan).length 200⟩).2 =
      planReqs (planOps plan) blocks := by
  rw [test_extensions_eq_doOps]
  rcases hops : planOps plan with _ | ⟨⟨en, ext⟩, rest⟩
  · rw [hops] at hlen
    cases blocks with
    | nil => exact ⟨rfl, rfl⟩
    | cons b bs => simp at hlen
  · rw [hops] at hlen
    cases blocks with
    | nil => simp at hlen
    | cons b bs =>
      have hga : get_auth_header none ⟨[tok], []⟩ =
          some (pyStrip tok, ⟨[], []⟩, ["<new auth token>"]) :=
        authLoop_adopt none tok [] [] htok
      have hdo := doOp_conv en ext
        ⟨none, ⟨[tok], []⟩, (b :: bs).flatten,
          List.replicate ((en, ext) :: rest).length 200⟩
        (pyStrip tok) ⟨[], []⟩ ["<new auth token>"] b bs.flatten
        200 (List.replicate rest.length 200) hga rfl (by simp)
        (hconv b (by simp)) (by simp [List.replicate_succ]) (by decide)
      rw [doOps_cons, hdo]
      simp only
      have ihr := doOps_conv rest bs (pyStrip tok) ⟨[], []⟩ rfl
        (by simpa using hlen) (fun x hx => hconv x (by simp [hx]))
      constructor
      · rw [ihr.1]; rfl
      · rw [reqTrace, List.filterMap_append, ← reqTrace, ← reqTrace, ihr.2,
          reqTrace_op_conv en ext (pyStrip tok) ["<new auth token>"] b
            (hconv b (by simp))]
        simp [planReqs]

theorem c1_witness :
    (pyStrip "tok" ≠ "") ∧
    exitCode (test_extensions [["pg_trgm", "hstore"]] ⟨none, ⟨["tok"], []⟩,
      ([[⟨200, "pending", ""⟩, ⟨200, "succeeded", ""⟩],
        [⟨200, "pending", ""⟩, ⟨200, "succeeded", ""⟩],
        [⟨200, "pending", ""⟩, ⟨200, "succeeded", ""⟩],
        [⟨200, "pending", ""⟩, ⟨200, "succeeded", ""⟩]] :
          List (List PollResp)).flatten,
      List.replicate (planOps [["pg_trgm", "hstore"]]).length 200⟩).1 =
        some 0 ∧
    reqTrace (test_extensions [["pg_trgm", "hstore"]] ⟨none, ⟨["tok"], []⟩,
      ([[⟨200, "pending", ""⟩, ⟨200, "succeeded", ""⟩],
        [⟨200, "pending", ""⟩, ⟨200, "succeeded", ""⟩],
        [⟨200, "pending", ""⟩, ⟨200, "succeeded", ""⟩],
        [⟨200, "pending", ""⟩, ⟨200, "succeeded", ""⟩]] :
          List (List PollResp)).flatten,
      List.replicate (planOps [["pg_trgm", "hstore"]]).length 200⟩).2 =
      [Req.enable "pg_trgm", Req.poll, Req.poll,
       Req.enable "hstore", Req.poll, Req.poll,
       Req.disable "hstore", Req.poll, Req.poll,
       Req.disable "pg_trgm", Req.poll, Req.poll] := by
  have h := c1_sequencer_order [["pg_trgm", "hstore"]] "tok"
    [[⟨200, "pending", ""⟩, ⟨200, "succeeded", ""⟩],
     [⟨200, "pending", ""⟩, ⟨200, "succeeded", ""⟩],
     [⟨200, "pending", ""⟩, ⟨200, "succeeded", ""⟩],
     [⟨200, "pending", ""⟩, ⟨200, "succeeded", ""⟩]]
    (by decide) (by decide) (by decide)
  refine ⟨by decide, h.1, ?_⟩
  rw [h.2]
  decide

theorem wait_fail (a : String) (ts : TokenStream) (patches : List Nat)
    (pre : List PollResp) (pf : PollResp) (rest : List PollResp)
    (hts : ts.ready = false) (hpre : ∀ p ∈ pre, nonTerminal p = true)
    (h2 : is2xx pf.status = true) (hf : pf.state = "failed") :
    wait_for_success (some a) ts patches (pre ++ pf :: rest) =
      (RunRes.opFail pf.description,
        dotTrace a pre.length ++
          [Event.pollReq a,
            Event.out ("description: " ++ pf.description)]) := by
  rw [wait_skip_all a ts patches pre _ hts hpre,
    wait_step_failed a ts patches pf rest hts h2 hf]

theorem doOp_fail (en : Bool) (ext : String) (s : St) (a : String)
    (ts' : TokenStream) (outs : List String) (pre : List PollResp)
    (pf : PollResp) (rest : List PollResp) (st : Nat) (prest : List Nat)
    (hga : get_auth_header s.auth s.ts = some (a, ts', outs))
    (hts' : ts'.ready = false)
    (hpolls : s.polls = pre ++ pf :: rest)
    (hpre : ∀ p ∈ pre, nonTerminal p = true)
    (h2f : is2xx pf.status = true) (hf : pf.state = "failed")
    (hpat : s.patches = st :: prest) (h2 : is2xx st = true) :
    doOp en ext s =
      (RunRes.opFail pf.description,
        Event.out ((if en then "enabling" else "disabling") ++
            " extension " ++ pyRepr ext) ::
          (outs.map Event.out ++
            ((if en then Event.enableReq ext a else Event.disableReq ext a) ::
              (dotTrace a pre.length ++
                [Event.pollReq a,
                  Event.out ("description: " ++ pf.description)])))) := by
  rw [doOp_eq en ext s a ts' outs st prest hga hpat h2, hpolls,
    wait_fail a ts' prest pre pf rest hts' hpre h2f hf]

theorem reqTrace_op_generic (en : Bool) (ext a lastline : String)
    (outs : List String) (n : Nat) :
    reqTrace (Event.out ((if en then "enabling" else "disabling") ++
          " extension " ++ pyRepr ext) ::
        (outs.map Event.out ++
          ((if en then Event.enableReq ext a else Event.disableReq ext a) ::
            (dotTrace a n ++ [Event.pollReq a, Event.out lastline])))) =
      (if en then Req.enable ext else Req.disable ext) ::
        List.replicate (n + 1) Req.poll := by
  rw [reqTrace_cons_out, reqTrace_outs]
  cases en <;>
    simp [reqTrace, List.filterMap_cons, List.filterMap_append, reqOf,
      ← reqTrace_dotTrace a n, List.replicate_succ']

/-- C4: when a polled operation reaches the exact terminal state
`"failed"`, the run prints the server-supplied description as its final
output, terminates with exit code 8 — distinct from 0 and from the
generic uncaught-exception exit 1 — and issues no further requests: in
particular no disable request ever goes out. -/
theorem c4_failed_aborts (A B tok d : String) (b1 : List PollResp)
    (pre2 restPolls : List PollResp) (s0 : St)
    (htok : pyStrip tok ≠ "") (hb1 : convSucc b1 = true)
    (hpre2 : ∀ p ∈ pre2, nonTerminal p = true)
    (hs0 : s0 = ⟨none, ⟨[tok], []⟩,
      b1 ++ (pre2 ++ ⟨200, "failed", d⟩ :: restPolls),
      [200, 200, 200, 200]⟩) :
    (test_extensions [[A, B]] s0).1 = RunRes.opFail d ∧
    exitCode (test_extensions [[A, B]] s0).1 = some 8 ∧
    exitCode (test_extensions [[A, B]] s0).1 ≠ some 0 ∧
    exitCode (test_extensions [[A, B]] s0).1 ≠ some 1 ∧
    reqTrace (test_extensions [[A, B]] s0).2 =
      Req.enable A :: (List.replicate b1.length Req.poll ++
        (Req.enable B :: List.replicate (pre2.length + 1) Req.poll)) ∧
    (∀ x, Req.disable x ∉ reqTrace (test_extensions [[A, B]] s0).2) ∧
    (∃ t, (test_extensions [[A, B]] s0).2 =
      t ++ [Event.out ("description: " ++ d)]) := by
  subst hs0
  rw [test_extensions_eq_doOps]
  have hops : planOps [[A, B]] =
      [(true, A), (true, B), (false, B), (false, A)] := rfl
  rw [hops]
  have hga : get_auth_header none ⟨[tok], []⟩ =
      some (pyStrip tok, ⟨[], []⟩, ["<new auth token>"]) :=
    authLoop_adopt none tok [] [] htok
  have hdo1 := doOp_conv true A
    ⟨none, ⟨[tok], []⟩, b1 ++ (pre2 ++ ⟨200, "failed", d⟩ :: restPolls),
      [200, 200, 200, 200]⟩
    (pyStrip tok) ⟨[], []⟩ ["<new auth token>"] b1
    (pre2 ++ ⟨200, "failed", d⟩ :: restPolls) 200 [200, 200, 200]
    hga rfl rfl hb1 rfl rfl
  have hdo2 := doOp_fail true B
    ⟨some (pyStrip tok), ⟨[], []⟩,
      pre2 ++ ⟨200, "failed", d⟩ :: restPolls, [200, 200, 200]⟩
    (pyStrip tok) ⟨[], []⟩ [] pre2 ⟨200, "failed", d⟩ restPolls
    200 [200, 200]
    (get_auth_header_cached (pyStrip tok) ⟨[], []⟩ rfl) rfl rfl
    hpre2 rfl rfl rfl rfl
  have hrun : doOps [(true, A), (true, B), (false, B), (false, A)]
      ⟨none, ⟨[tok], []⟩,
        b1 ++ (pre2 ++ ⟨200, "failed", d⟩ :: restPolls),
        [200, 200, 200, 200]⟩ =
      (RunRes.opFail d,
        (Event.out ((if true then "enabling" else "disabling") ++
            " extension " ++ pyRepr A) ::
          (List.map Event.out ["<new auth token>"] ++
            ((if true then Event.enableReq A (pyStrip tok)
              else Event.disableReq A (pyStrip tok)) ::
              (dotTrace (pyStrip tok) (b1.length - 1) ++
                [Event.pollReq (pyStrip tok), Event.out "succeeded"])))) ++
        (Event.out ((if true then "enabling" else "disabling") ++
            " extension " ++ pyRepr B) ::
          (List.map Event.out [] ++
            ((if true then Event.enableReq B (pyStrip tok)
              else Event.disableReq B (pyStrip tok)) ::
              (dotTrace (pyStrip tok) pre2.length ++
                [Event.pollReq (pyStrip tok),
                  Event.out ("description: " ++ d)]))))) := by
    rw [doOps_cons, hdo1]
    show (match doOps [(true, B), (false, B), (false, A)] _ with
      | (r, t) => (r, _ ++ t)) = _
    rw [doOps_cons, hdo2]
  rw [hrun]
  have hreq : reqTrace ((Event.out ((if true then "enabling" else "disabling") ++
          " extension " ++ pyRepr A) ::
        (List.map Event.out ["<new auth token>"] ++
          ((if true then Event.enableReq A (pyStrip tok)
            else Event.disableReq A (pyStrip tok)) ::
            (dotTrace (pyStrip tok) (b1.length - 1) ++
              [Event.pollReq (pyStrip tok), Event.out "succeeded"])))) ++
      (Event.out ((if true then "enabling" else "disabling") ++
          " extension " ++ pyRepr B) ::
        (List.map Event.out [] ++
          ((if true then Event.enableReq B (pyStrip tok)
            else Event.disableReq B (pyStrip tok)) ::
            (dotTrace (pyStrip tok) pre2.length ++
              [Event.pollReq (pyStrip tok),
                Event.out ("description: " ++ d)]))))) =
      Req.enable A :: (List.replicate b1.length Req.poll ++
        (Req.enable B :: List.replicate (pre2.length + 1) Req.poll)) := by
    rw [reqTrace, List.filterMap_append, ← reqTrace, ← reqTrace,
      reqTrace_op_conv true A (pyStrip tok) ["<new auth token>"] b1 hb1,
      reqTrace_op_generic true B (pyStrip tok) ("description: " ++ d) []
        pre2.length]
    simp
  refine ⟨rfl, rfl, by simp [exitCode], by simp [exitCode], hreq, ?_, ?_⟩
  · intro x
    rw [hreq]
    simp [List.mem_replicate]
  · refine ⟨Event.out ("enabling extension " ++ pyRepr A) ::
      Event.out "<new auth token>" ::
        Event.enableReq A (pyStrip tok) ::
          (dotTrace (pyStrip tok) (b1.length - 1) ++
            Event.pollReq (pyStrip tok) ::
              Event.out "succeeded" ::
                Event.out ("enabling extension " ++ pyRepr B) ::
                  Event.enableReq B (pyStrip tok) ::
                    (dotTrace (pyStrip tok) pre2.length ++
                      [Event.pollReq (pyStrip tok)])), ?_⟩
    simp


theorem c4_witness :
    (test_extensions [["pg_trgm", "hstore"]] ⟨none, ⟨["tok"], []⟩,
      [⟨200, "succeeded", ""⟩] ++
        ([] ++ ⟨200, "failed", "dependency missing"⟩ :: []),
      [200, 200, 200, 200]⟩).1 = RunRes.opFail "dependency missing" :=
  (c4_failed_aborts "pg_trgm" "hstore" "tok" "dependency missing"
    [⟨200, "succeeded", ""⟩] [] [] _ (by decide) (by decide)
    (by simp) rfl).1

theorem authLoop_none_blank_future (fut : List String)
    (hf : ∀ l ∈ fut, pyStrip l = "") : authLoop none ⟨[], fut⟩ = none := by
  induction fut with
  | nil => exact authLoop_empty none
  | cons l ls ih =>
    rw [authLoop_cons_future]
    simp only [hf l (by simp), ne_eq, not_true_eq_false, if_false, reduceIte]
    exact ih (fun x hx => hf x (by simp [hx]))

theorem authLoop_none_allBlank (pend fut : List String)
    (hp : ∀ l ∈ pend, pyStrip l = "") (hf : ∀ l ∈ fut, pyStrip l = "") :
    authLoop none ⟨pend, fut⟩ = none := by
  induction pend with
  | nil => exact authLoop_none_blank_future fut hf
  | cons l ls ih =>
    rw [authLoop_blank_none l ls fut (hp l (by simp))]
    exact ih (fun x hx => hp x (by simp [hx]))

theorem test_extensions_cons (es : List String) (rest : List (List String))
    (s : St) :
    test_extensions (es :: rest) s =
      (match doOps (setOps es) s with
       | (.ok s', t) =>
         ((test_extensions rest s').1, t ++ (test_extensions rest s').2)
       | (r, t) => (r, t)) := rfl

theorem test_extensions_blank (plan : List (List String)) (s : St)
    (hauth : s.auth = none)
    (hp : ∀ l ∈ s.ts.pending, pyStrip l = "")
    (hf : ∀ l ∈ s.ts.future, pyStrip l = "") :
    reqTrace (test_extensions plan s).2 = [] ∧
      (planOps plan ≠ [] → (test_extensions plan s).1 = RunRes.exn) := by
  have hga : get_auth_header s.auth s.ts = none := by
    rw [hauth]
    show authLoop none s.ts = none
    exact authLoop_none_allBlank s.ts.pending s.ts.future hp hf
  induction plan with
  | nil => exact ⟨rfl, fun h => absurd rfl h⟩
  | cons es rest ih =>
    cases es with
    | nil =>
      have heq : test_extensions ([] :: rest) s = test_extensions rest s := rfl
      rw [heq]
      refine ⟨ih.1, fun h => ih.2 ?_⟩
      simpa [planOps, setOps] using h
    | cons e es' =>
      have hset : setOps (e :: es') =
          (true, e) :: (es'.map (fun x => (true, x)) ++
            (e :: es').reverse.map (fun x => (false, x))) := by
        simp [setOps]
      have hdo : doOp true e s =
          (.exn, [Event.out ("enabling extension " ++ pyRepr e)]) := by
        simp [doOp, hga]
      have hrun : test_extensions ((e :: es') :: rest) s =
          (.exn, [Event.out ("enabling extension " ++ pyRepr e)]) := by
        rw [test_extensions_cons, hset, doOps_cons, hdo]
      rw [hrun]
      exact ⟨rfl, fun _ => rfl⟩

/-- C7: if the token stream can only ever deliver blank lines (in
particular, if it is already exhausted) before any credential exists, the
first `_get_auth_header` call raises (`StopIteration` propagates) and a
run over any plan aborts with the generic exception outcome before
issuing a single request. -/
theorem c7_eof_before_credential :
    (∀ s : TokenStream, (∀ l ∈ s.pending, pyStrip l = "") →
      (∀ l ∈ s.future, pyStrip l = "") → get_auth_header none s = none) ∧
    (∀ (plan : List (List String)) (polls : List PollResp)
        (patches : List Nat) (ts : TokenStream),
        (∀ l ∈ ts.pending, pyStrip l = "") →
        (∀ l ∈ ts.future, pyStrip l = "") →
        reqTrace (test_extensions plan ⟨none, ts, polls, patches⟩).2 = [] ∧
        (planOps plan ≠ [] →
          (test_extensions plan ⟨none, ts, polls, patches⟩).1 =
            RunRes.exn)) := by
  constructor
  · intro s hp hf
    show authLoop none s = none
    exact authLoop_none_allBlank s.pending s.future hp hf
  · intro plan polls patches ts hp hf
    exact test_extensions_blank plan ⟨none, ts, polls, patches⟩ rfl hp hf

theorem c7_witness :
    get_auth_header none ⟨[], []⟩ = none ∧
    reqTrace (test_extensions [["x"]] ⟨none, ⟨[""], []⟩, [], []⟩).2 = [] ∧
    (test_extensions [["x"]] ⟨none, ⟨[""], []⟩, [], []⟩).1 = RunRes.exn :=
  ⟨c7_eof_before_credential.1 ⟨[], []⟩ (by simp) (by simp),
   (c7_eof_before_credential.2 [["x"]] [] [] ⟨[""], []⟩
      (by decide) (by simp)).1,
   (c7_eof_before_credential.2 [["x"]] [] [] ⟨[""], []⟩
      (by decide) (by simp)).2 (by decide)⟩

/-- C3 fails on the code: with a credential `"old"` established and two
non-blank lines `"tokA"`, `"tokB"` pending, the next `_get_auth_header`
call adopts `"tokA"` — the EARLIER line, which does become the current
credential and is returned — not the most recent `"tokB"`; `"tokB"` is
adopted only by the call after. -/
theorem c3_counterexample :
    get_auth_header (some "old") ⟨["tokA", "tokB"], []⟩ =
      some ("tokA", ⟨["tokB"], []⟩, ["<new auth token>"]) ∧
    "tokA" ≠ "tokB" ∧
    get_auth_header (some "tokA") ⟨["tokB"], []⟩ =
      some ("tokB", ⟨[], []⟩, ["<new auth token>"]) := by decide

/-- C3 amended: when several token lines are pending, each
`_get_auth_header` call consumes exactly one line, adopting pending lines
oldest-first; earlier pending lines do each become the current credential
in turn, and the most recently arrived line becomes current only after as
many calls as there are pending lines before it. -/
theorem c3_amended (a l1 l2 : String) (fut : List String)
    (h1 : pyStrip l1 ≠ "") (h2 : pyStrip l2 ≠ "") :
    get_auth_header (some a) ⟨[l1, l2], fut⟩ =
      some (pyStrip l1, ⟨[l2], fut⟩, ["<new auth token>"]) ∧
    get_auth_header (some (pyStrip l1)) ⟨[l2], fut⟩ =
      some (pyStrip l2, ⟨[], fut⟩, ["<new auth token>"]) := by
  constructor
  · rw [get_auth_header_refresh a ⟨[l1, l2], fut⟩ rfl]
    exact authLoop_adopt (some a) l1 [l2] fut h1
  · rw [get_auth_header_refresh (pyStrip l1) ⟨[l2], fut⟩ rfl]
    exact authLoop_adopt (some (pyStrip l1)) l2 [] fut h2

theorem c3_amended_witness :
    get_auth_header (some "old") ⟨["x", "y"], []⟩ =
      some (pyStrip "x", ⟨["y"], []⟩, ["<new auth token>"]) ∧
    get_auth_header (some (pyStrip "x")) ⟨["y"], []⟩ =
      some (pyStrip "y", ⟨[], []⟩, ["<new auth token>"]) :=
  c3_amended "old" "x" "y" [] (by decide) (by decide)

/-- C8: every outbound request fetches its Authorization header by a fresh
`_get_auth_header` call at the moment it is issued: with tokens `t1, t2`
pending, the first request (enable) goes out with `t1`'s credential, the
token is rotated to `t2` during that very call's wait, and the immediately
following poll request — and every request after it — carries `t2`'s
credential.  No header value is reused from a cache across requests. -/
theorem c8_fresh_header (A t1 t2 : String) (h1 : pyStrip t1 ≠ "")
    (h2 : pyStrip t2 ≠ "") :
    headerTrace (test_extensions [[A]] ⟨none, ⟨[t1, t2], []⟩,
      [⟨200, "succeeded", ""⟩, ⟨200, "succeeded", ""⟩], [200, 200]⟩).2 =
      [pyStrip t1, pyStrip t2, pyStrip t2, pyStrip t2] ∧
    reqTrace (test_extensions [[A]] ⟨none, ⟨[t1, t2], []⟩,
      [⟨200, "succeeded", ""⟩, ⟨200, "succeeded", ""⟩], [200, 200]⟩).2 =
      [Req.enable A, Req.poll, Req.disable A, Req.poll] := by
  have hga1 : get_auth_header none ⟨[t1, t2], []⟩ =
      some (pyStrip t1, ⟨[t2], []⟩, ["<new auth token>"]) :=
    authLoop_adopt none t1 [t2] [] h1
  have hga2 : get_auth_header (some (pyStrip t1)) ⟨[t2], []⟩ =
      some (pyStrip t2, ⟨[], []⟩, ["<new auth token>"]) := by
    rw [get_auth_header_refresh (pyStrip t1) ⟨[t2], []⟩ rfl]
    exact authLoop_adopt (some (pyStrip t1)) t2 [] [] h2
  have hga3 : get_auth_header (some (pyStrip t2)) ⟨[], []⟩ =
      some (pyStrip t2, ⟨[], []⟩, []) :=
    get_auth_header_cached (pyStrip t2) ⟨[], []⟩ rfl
  constructor <;>
    simp [test_extensions, doOps, doOp, wait_for_success, setOps,
      hga1, hga2, hga3, headerTrace, reqTrace, reqOf, is2xx,
      List.filterMap_cons, List.filterMap_append]

theorem c8_witness :
    headerTrace (test_extensions [["ext"]] ⟨none, ⟨["t1", "t2"], []⟩,
      [⟨200, "succeeded", ""⟩, ⟨200, "succeeded", ""⟩], [200, 200]⟩).2 =
      [pyStrip "t1", pyStrip "t2", pyStrip "t2", pyStrip "t2"] ∧
    reqTrace (test_extensions [["ext"]] ⟨none, ⟨["t1", "t2"], []⟩,
      [⟨200, "succeeded", ""⟩, ⟨200, "succeeded", ""⟩], [200, 200]⟩).2 =
      [Req.enable "ext", Req.poll, Req.disable "ext", Req.poll] :=
  c8_fresh_header "ext" "t1" "t2" (by decide) (by decide)

end CheckPgExtensions
